import Mathlib

/-!
Verification of the cost-model of `team-ai-kostnadsoverslag`.

The repository has two implementations of the scenario-table builder
`make_df_cost` (a scalar nested-loop variant in `src/cost_model.py` and a
meshgrid-vectorized variant in `src/functions/cost_model.py`) and two
essentially identical implementations of the cost attributor
`calculate_total_cost`.  Numbers (Python ints and floats) are embedded as
rationals; pandas DataFrames as ordered lists of named numeric columns;
fallible operations return `Except String`.
-/

deriving instance DecidableEq for Except

namespace CostModel

/-- One row of the scenario table produced by `make_df_cost`:
the five parameter columns plus the two derived token-volume columns. -/
structure Row where
  employees : ℚ
  calls : ℚ
  avg_words_per_q : ℚ
  avg_words_per_a : ℚ
  tokens_per_word : ℚ
  m_tokens_sent : ℚ
  m_tokens_received : ℚ
deriving DecidableEq

/-- Row built by one iteration of the nested loop of the scalar variant
(`src/cost_model.py`, lines 69-80).  Note the source multiplies by the
literal `800`, not by the `employees` argument, in both derived fields. -/
def mkRowScalar (employees call q a tokens_per_word : ℚ) : Row :=
  { employees := employees
    calls := call
    avg_words_per_q := q
    avg_words_per_a := a
    tokens_per_word := tokens_per_word
    m_tokens_sent := ((800 * call) * q * tokens_per_word) / 10 ^ 6
    m_tokens_received := ((800 * call) * a * tokens_per_word) / 10 ^ 6 }

/-- Scalar variant of `make_df_cost` (`src/cost_model.py`).  The nested
loops iterate calls, then question lengths, then answer lengths; the final
`pd.concat(df_list)` raises a `ValueError` when `df_list` is empty, which we
model as an `Except.error`. -/
def make_df_cost (employees : ℚ) (calls q_length a_length : List ℚ)
    (tokens_per_word : ℚ) : Except String (List Row) :=
  let df_list :=
    calls.flatMap fun call =>
      q_length.flatMap fun q =>
        a_length.map fun a =>
          mkRowScalar employees call q a tokens_per_word
  if df_list = [] then .error "No objects to concatenate" else .ok df_list

/-- Row built by the vectorized variant (`src/functions/cost_model.py`,
lines 58-62): here the derived fields do use the row's own `employees`. -/
def mkRowVec (e c q a t : ℚ) : Row :=
  { employees := e
    calls := c
    avg_words_per_q := q
    avg_words_per_a := a
    tokens_per_word := t
    m_tokens_sent := ((e * c) * q * t) / 10 ^ 6
    m_tokens_received := ((e * c) * a * t) / 10 ^ 6 }

/-- Vectorized variant of `make_df_cost` (`src/functions/cost_model.py`).
`np.meshgrid(e, c, q, a, t)` followed by `mesh.T.reshape(-1, 5)` enumerates
the cartesian product with index `i5` (tokens_per_word) slowest, then `i4`
(a_length), `i3` (q_length), `i1` (employees), and `i2` (calls) fastest;
every tuple of the product appears exactly once per index combination.
An empty factor simply yields an empty table: no error is raised. -/
def make_df_cost_vec (employees calls q_length a_length tokens_per_word :
    List ℚ) : List Row :=
  tokens_per_word.flatMap fun t =>
    a_length.flatMap fun a =>
      q_length.flatMap fun q =>
        employees.flatMap fun e =>
          calls.map fun c =>
            mkRowVec e c q a t

/-!
## Cost attributor

A pandas DataFrame of numeric columns is an ordered association list of
(column name, values); an LLM pricing table additionally has the string
column `modell` used for row selection.
-/

/-- A numeric DataFrame: ordered named columns of rational values. -/
abbrev DataFrame : Type := List (String × List ℚ)

/-- The pricing DataFrame `df_llms`: a string column `modell` plus numeric
columns (one entry of `numcols` per numeric column, all aligned with
`modell` row-wise). -/
structure LlmTable where
  modell : List String
  numcols : List (String × List ℚ)
deriving DecidableEq

/-- `df[name]`: the first column with this name, or a pandas `KeyError`. -/
def getCol (df : DataFrame) (name : String) : Except String (List ℚ) :=
  match df.find? (fun c => c.1 == name) with
  | some c => .ok c.2
  | none => .error ("KeyError: " ++ name)

/-- Number of rows of a DataFrame (columns are all of equal length, so the
first column's length is the row count; a column-less frame has 0 rows). -/
def nRows (df : DataFrame) : ℕ :=
  match df with
  | [] => 0
  | c :: _ => c.2.length

/-- `df[name] = vals`: replaces the column in place if it exists, appends it
otherwise; pandas raises a `ValueError` when the assigned array's length
differs from the number of rows. -/
def setCol (df : DataFrame) (name : String) (vals : List ℚ) :
    Except String DataFrame :=
  if vals.length = nRows df then
    if df.any (fun c => c.1 == name) then
      .ok (df.map fun c => if c.1 = name then (name, vals) else c)
    else
      .ok (df ++ [(name, vals)])
  else
    .error "Length of values does not match length of index"

/-- `df_llms.loc[df_llms['modell'] == model, col]`: the values of column
`col` in the rows whose `modell` equals `model` (a `KeyError` if the column
is absent). -/
def locModel (t : LlmTable) (model col : String) : Except String (List ℚ) :=
  match t.numcols.find? (fun c => c.1 == col) with
  | some c => .ok (((t.modell.zip c.2).filter fun p => p.1 == model).map
      fun p => p.2)
  | none => .error ("KeyError: " ++ col)

/-- numpy elementwise product with shape-(n,) broadcasting: legal when the
lengths agree or one operand has length 1, otherwise a broadcast error. -/
def npMul (xs ys : List ℚ) : Except String (List ℚ) :=
  match xs, ys with
  | xs, [y] => .ok (xs.map fun x => x * y)
  | [x], ys => .ok (ys.map fun y => x * y)
  | xs, ys =>
    if xs.length = ys.length then .ok (List.zipWith (fun x y => x * y) xs ys)
    else .error "operands could not be broadcast together"

/-- Generated column name `f"Question cost {model} (USD)"`. -/
def questionCol (model : String) : String :=
  "Question cost " ++ model ++ " (USD)"

/-- Generated column name `f"Answer cost {model} (USD)"`. -/
def answerCol (model : String) : String :=
  "Answer cost " ++ model ++ " (USD)"

/-- Generated column name `f"Total cost {model} (USD)"`. -/
def totalCol (model : String) : String :=
  "Total cost " ++ model ++ " (USD)"

/-- One iteration of the `for model in models` loop of
`calculate_total_cost` (both variants, identical code): three column
assignments on `df_costs`. -/
def applyModel (df_llms : LlmTable) (cost_sent cost_rec ts_col tr_col :
    String) (df : DataFrame) (model : String) : Except String DataFrame := do
  let sent ← getCol df ts_col
  let sentRates ← locModel df_llms model cost_sent
  let q ← npMul sent sentRates
  let df1 ← setCol df (questionCol model) q
  let recv ← getCol df1 tr_col
  let recRates ← locModel df_llms model cost_rec
  let a ← npMul recv recRates
  let df2 ← setCol df1 (answerCol model) a
  let qv ← getCol df2 (questionCol model)
  let av ← getCol df2 (answerCol model)
  setCol df2 (totalCol model) (List.zipWith (fun x y => x + y) qv av)

/-- `calculate_total_cost` (`src/cost_model.py` lines 137-146 and
`src/functions/cost_model.py` lines 125-141): copies both inputs, then for
each model adds the question-, answer- and total-cost columns.  The copies
mean the function is a pure map from inputs to output (the heap model
below makes the non-mutation explicit). -/
def calculate_total_cost (df_costs : DataFrame) (df_llms : LlmTable)
    (models : List String) (cost_sent cost_rec ts_col tr_col : String) :
    Except String DataFrame :=
  models.foldlM (applyModel df_llms cost_sent cost_rec ts_col tr_col)
    df_costs

/-!
## Operational (heap) model of `calculate_total_cost`

Python DataFrames are reference values; `df[col] = ...` mutates the object
behind the reference.  To state that the caller's tables are never mutated
we model a heap of scenario tables and of pricing tables, addressed by
index; the function receives references into the caller's heap.  The body's
first two statements, `df_costs = df_costs.copy()` and
`df_llms = df_llms.copy()`, allocate (resp. read off) fresh values, and
every subsequent column assignment targets the fresh scenario table. -/

structure Heap where
  costs : List DataFrame
  llms : List LlmTable
deriving DecidableEq

/-- Dereference a scenario-table reference. -/
def Heap.readCost (h : Heap) (r : ℕ) : Except String DataFrame :=
  match h.costs[r]? with
  | some d => .ok d
  | none => .error "dangling reference"

/-- Overwrite the scenario table behind a reference. -/
def Heap.writeCost (h : Heap) (r : ℕ) (d : DataFrame) : Heap :=
  { h with costs := h.costs.set r d }

/-- `df_costs[f"Question cost {model} (USD)"] = df_costs[ts].values *
np.array(df_llms.loc[df_llms['modell'] == model, cost_sent])`, executed on
the table behind reference `r`. -/
def stmtQuestion (llmLocal : LlmTable) (cost_sent ts_col : String) (r : ℕ)
    (model : String) (h : Heap) : Heap × Option String :=
  match h.readCost r with
  | .error e => (h, some e)
  | .ok df =>
    match (do
        let sent ← getCol df ts_col
        let rates ← locModel llmLocal model cost_sent
        npMul sent rates : Except String (List ℚ)) with
    | .error e => (h, some e)
    | .ok q =>
      match setCol df (questionCol model) q with
      | .error e => (h, some e)
      | .ok df2 => (h.writeCost r df2, none)

/-- `df_costs[f"Answer cost {model} (USD)"] = df_costs[tr].values *
np.array(df_llms.loc[df_llms['modell'] == model, cost_rec])`. -/
def stmtAnswer (llmLocal : LlmTable) (cost_rec tr_col : String) (r : ℕ)
    (model : String) (h : Heap) : Heap × Option String :=
  match h.readCost r with
  | .error e => (h, some e)
  | .ok df =>
    match (do
        let recv ← getCol df tr_col
        let rates ← locModel llmLocal model cost_rec
        npMul recv rates : Except String (List ℚ)) with
    | .error e => (h, some e)
    | .ok a =>
      match setCol df (answerCol model) a with
      | .error e => (h, some e)
      | .ok df2 => (h.writeCost r df2, none)

/-- `df_costs[f"Total cost {model} (USD)"] = df_costs[question] +
df_costs[answer]`. -/
def stmtTotal (r : ℕ) (model : String) (h : Heap) : Heap × Option String :=
  match h.readCost r with
  | .error e => (h, some e)
  | .ok df =>
    match (do
        let qv ← getCol df (questionCol model)
        let av ← getCol df (answerCol model)
        Except.ok (List.zipWith (fun x y => x + y) qv av) :
        Except String (List ℚ)) with
    | .error e => (h, some e)
    | .ok tv =>
      match setCol df (totalCol model) tv with
      | .error e => (h, some e)
      | .ok df2 => (h.writeCost r df2, none)

/-- One iteration of the `for model in models` loop, operationally. -/
def applyModelOp (llmLocal : LlmTable) (cost_sent cost_rec ts_col tr_col :
    String) (r : ℕ) (model : String) (h : Heap) : Heap × Option String :=
  match stmtQuestion llmLocal cost_sent ts_col r model h with
  | (h1, some e) => (h1, some e)
  | (h1, none) =>
    match stmtAnswer llmLocal cost_rec tr_col r model h1 with
    | (h2, some e) => (h2, some e)
    | (h2, none) => stmtTotal r model h2

/-- The model loop; a raised error aborts it (the heap keeps the writes
already performed, exactly as a propagating Python exception would). -/
def loopModels (llmLocal : LlmTable) (cost_sent cost_rec ts_col tr_col :
    String) (r : ℕ) : List String → Heap → Heap × Except String ℕ
  | [], h => (h, .ok r)
  | m :: ms, h =>
    match applyModelOp llmLocal cost_sent cost_rec ts_col tr_col r m h with
    | (h2, some e) => (h2, .error e)
    | (h2, none) =>
      loopModels llmLocal cost_sent cost_rec ts_col tr_col r ms h2

/-- Operational `calculate_total_cost`: takes references to the caller's
two tables, copies both, runs the loop on the copy, and returns a
reference to the extended copy (or the error), together with the final
heap. -/
def calculate_total_cost_op (h : Heap) (costsRef llmsRef : ℕ)
    (models : List String) (cost_sent cost_rec ts_col tr_col : String) :
    Heap × Except String ℕ :=
  match h.costs[costsRef]?, h.llms[llmsRef]? with
  | some dfc, some dfl =>
    let localRef := h.costs.length
    let h1 : Heap := { h with costs := h.costs ++ [dfc] }
    loopModels dfl cost_sent cost_rec ts_col tr_col localRef models h1
  | _, _ => (h, .error "dangling reference")

/-!
## Claims
-/

/-- Claim C1: each output row of `make_df_cost` is claimed to satisfy
`m_tokens_sent = (employees × calls × avg_words_per_q × tokens_per_word) /
1_000_000` with the row's own employees value.  The scalar variant
(`src/cost_model.py` lines 79-80) instead multiplies by the literal 800:
for `employees = 1000, calls = [50], q_length = [50], a_length = [100],
tokens_per_word = 1` the single produced row carries `employees = 1000` but
`m_tokens_sent = 800·50·50·1/10^6 = 2` and `m_tokens_received =
800·50·100·1/10^6 = 4`, while the claimed formula gives `5/2` and `5`. -/
theorem C1_scalar_variant_uses_constant_800 :
    make_df_cost 1000 [50] [50] [100] 1 =
      .ok [{ employees := 1000, calls := 50, avg_words_per_q := 50,
             avg_words_per_a := 100, tokens_per_word := 1,
             m_tokens_sent := 2, m_tokens_received := 4 }] ∧
    (2 : ℚ) ≠ (1000 * 50) * 50 * 1 / 10 ^ 6 ∧
    (4 : ℚ) ≠ (1000 * 50) * 100 * 1 / 10 ^ 6 := by
  refine ⟨by with_unfolding_all rfl, by norm_num, by norm_num⟩

/-- Claim C7: doubling the employees value is claimed to double the row's
token volumes in both variants.  In the scalar variant the employees
argument does not enter the formula at all: with employees 800 and 1600
(all else fixed at `calls = [1]`, `q_length = [1]`, `a_length = [1]`,
`tokens_per_word = 1`) both calls produce the same `m_tokens_sent =
m_tokens_received = 8/10^4`, instead of the doubled value. -/
theorem C7_scalar_variant_employees_doubling_has_no_effect :
    (make_df_cost 800 [1] [1] [1] 1).map
        (List.map fun r => (r.m_tokens_sent, r.m_tokens_received)) =
      .ok [((8 : ℚ) / 10 ^ 4, (8 : ℚ) / 10 ^ 4)] ∧
    (make_df_cost 1600 [1] [1] [1] 1).map
        (List.map fun r => (r.m_tokens_sent, r.m_tokens_received)) =
      .ok [((8 : ℚ) / 10 ^ 4, (8 : ℚ) / 10 ^ 4)] := by
  refine ⟨by with_unfolding_all rfl, by with_unfolding_all rfl⟩

/-- Claim C3, counterexample: with an empty `calls` collection the
vectorized variant raises nothing at all — it silently returns a
zero-row table, contradicting both the claimed `EmptyInputError` (no such
error exists in the code) and the claim that a zero-row table is never
silently returned. -/
theorem C3_counterexample_vec_empty_calls_silently_returns_no_rows :
    make_df_cost_vec [800] [] [50] [100] [1] = [] := by
  with_unfolding_all rfl

/-- Claim C4, counterexample: a pricing table with two entries for model
"A" and a two-row scenario table make `calculate_total_cost` succeed
silently (numpy broadcasts the two rates against the two rows
elementwise), instead of failing for a non-unique model id. -/
theorem C4_counterexample_duplicate_pricing_entries_succeed :
    calculate_total_cost
        [("m_tokens_sent", [1, 2]), ("m_tokens_received", [1, 1])]
        ⟨["A", "A"],
         [("cost_sent", [1/100, 2/100]), ("cost_rec", [1/100, 2/100])]⟩
        ["A"] "cost_sent" "cost_rec" "m_tokens_sent" "m_tokens_received" =
      .ok [("m_tokens_sent", [1, 2]), ("m_tokens_received", [1, 1]),
           ("Question cost A (USD)", [1/100, 1/25]),
           ("Answer cost A (USD)", [1/100, 1/50]),
           ("Total cost A (USD)", [1/50, 3/50])] := by
  with_unfolding_all rfl

/-- Claim C8, counterexample: when the input scenario table already has a
column named `Question cost A (USD)` (here with value 99),
`calculate_total_cost` does not fail — it silently overwrites the column
with the newly computed values. -/
theorem C8_counterexample_existing_column_silently_overwritten :
    calculate_total_cost
        [("m_tokens_sent", [1]), ("m_tokens_received", [1]),
         ("Question cost A (USD)", [99])]
        ⟨["A"], [("cost_sent", [2]), ("cost_rec", [3])]⟩
        ["A"] "cost_sent" "cost_rec" "m_tokens_sent" "m_tokens_received" =
      .ok [("m_tokens_sent", [1]), ("m_tokens_received", [1]),
           ("Question cost A (USD)", [2]),
           ("Answer cost A (USD)", [3]),
           ("Total cost A (USD)", [5])] := by
  with_unfolding_all rfl

set_option maxRecDepth 4096 in
/-- Claim C2, counterexample: with the duplicated collection
`calls = [1, 1]` the scalar variant produces the row for the tuple
`(1, 1, 1, 1, 1)` twice, so that tuple does not appear in exactly one
row. -/
theorem C2_counterexample_duplicate_inputs_break_uniqueness :
    (make_df_cost 1 [1, 1] [1] [1] 1).map
        (fun l => l.count (mkRowScalar 1 1 1 1 1)) = .ok 2 := by
  with_unfolding_all rfl

/-- The scalar table's success case: exactly the non-empty loop output. -/
theorem make_df_cost_ok_iff (e t : ℚ) (cs qs as : List ℚ) (l : List Row) :
    make_df_cost e cs qs as t = .ok l ↔
      l = (cs.flatMap fun c => qs.flatMap fun q => as.map fun a =>
            mkRowScalar e c q a t) ∧ l ≠ [] := by
  rw [make_df_cost]
  split
  · rename_i h
    simp [h]
  · rename_i h
    simp only [Except.ok.injEq]
    constructor
    · rintro rfl
      exact ⟨rfl, h⟩
    · rintro ⟨rfl, _⟩
      rfl

/-- Characterization of the rows of the scalar table. -/
theorem mem_make_df_cost (e t : ℚ) (cs qs as : List ℚ) (l : List Row)
    (hl : make_df_cost e cs qs as t = .ok l) (r : Row) (hr : r ∈ l) :
    ∃ c ∈ cs, ∃ q ∈ qs, ∃ a ∈ as, r = mkRowScalar e c q a t := by
  obtain ⟨rfl, -⟩ := (make_df_cost_ok_iff e t cs qs as l).1 hl
  simp only [List.mem_flatMap, List.mem_map] at hr
  obtain ⟨c, hc, q, hq, a, ha, h⟩ := hr
  exact ⟨c, hc, q, hq, a, ha, h.symm⟩

/-- Characterization of the rows of the vectorized table. -/
theorem mem_make_df_cost_vec (es cs qs as ts : List ℚ) (r : Row)
    (hr : r ∈ make_df_cost_vec es cs qs as ts) :
    ∃ e ∈ es, ∃ c ∈ cs, ∃ q ∈ qs, ∃ a ∈ as, ∃ t ∈ ts,
      r = mkRowVec e c q a t := by
  simp only [make_df_cost_vec, List.mem_flatMap, List.mem_map] at hr
  obtain ⟨t, ht, a, ha, q, hq, e, he, c, hc, h⟩ := hr
  exact ⟨e, he, c, hc, q, hq, a, ha, t, ht, h.symm⟩

/-- Claim C3 (amended): there is no `EmptyInputError` in the code.  When
`calls`, `q_length` or `a_length` is empty the scalar variant fails with
pandas' `ValueError` from concatenating an empty list of frames, while
the vectorized variant silently returns a zero-row table whenever any of
its five input collections is empty. -/
theorem C3_amended_empty_input_behaviour (e t : ℚ)
    (cs qs as es cs2 qs2 as2 ts : List ℚ) :
    ((cs = [] ∨ qs = [] ∨ as = []) →
      make_df_cost e cs qs as t = .error "No objects to concatenate") ∧
    ((es = [] ∨ cs2 = [] ∨ qs2 = [] ∨ as2 = [] ∨ ts = []) →
      make_df_cost_vec es cs2 qs2 as2 ts = []) := by
  constructor
  · rintro (rfl | rfl | rfl) <;> simp [make_df_cost]
  · rintro (rfl | rfl | rfl | rfl | rfl) <;> simp [make_df_cost_vec]

/-- Witness for `C3_amended_empty_input_behaviour` at concrete inputs. -/
theorem C3_amended_empty_input_behaviour_witness :
    make_df_cost 1 [] [2] [3] 1 = .error "No objects to concatenate" ∧
    make_df_cost_vec [] [2] [3] [4] [1] = [] :=
  ⟨(C3_amended_empty_input_behaviour 1 1 [] [2] [3] [] [2] [3] [4] [1]).1
      (Or.inl rfl),
   (C3_amended_empty_input_behaviour 1 1 [] [2] [3] [] [2] [3] [4] [1]).2
      (Or.inl rfl)⟩

/-- Claim C10: in every row of every table returned by either variant of
`make_df_cost`, `m_tokens_sent × avg_words_per_a = m_tokens_received ×
avg_words_per_q` — the sent and received volumes differ only by the ratio
of question length to answer length. -/
theorem C10_sent_received_cross_relation (e t : ℚ)
    (cs qs as es2 cs2 qs2 as2 ts2 : List ℚ) (r : Row)
    (h : (∃ l, make_df_cost e cs qs as t = Except.ok l ∧ r ∈ l) ∨
      r ∈ make_df_cost_vec es2 cs2 qs2 as2 ts2) :
    r.m_tokens_sent * r.avg_words_per_a =
      r.m_tokens_received * r.avg_words_per_q := by
  rcases h with ⟨l, hl, hr⟩ | hr
  · obtain ⟨c, -, q, -, a, -, rfl⟩ := mem_make_df_cost e t cs qs as l hl r hr
    simp only [mkRowScalar]
    ring
  · obtain ⟨e2, -, c, -, q, -, a, -, t2, -, rfl⟩ :=
      mem_make_df_cost_vec es2 cs2 qs2 as2 ts2 r hr
    simp only [mkRowVec]
    ring

/-- Witness for `C10_sent_received_cross_relation`: the single row of a
singleton vectorized table. -/
theorem C10_sent_received_cross_relation_witness :
    (mkRowVec 2 3 5 7 1).m_tokens_sent * (mkRowVec 2 3 5 7 1).avg_words_per_a
      = (mkRowVec 2 3 5 7 1).m_tokens_received *
        (mkRowVec 2 3 5 7 1).avg_words_per_q :=
  C10_sent_received_cross_relation 1 1 [] [] [] [2] [3] [5] [7] [1]
    (mkRowVec 2 3 5 7 1) (Or.inr (by simp [make_df_cost_vec]))

/-- A vectorized row determines the parameter tuple that produced it. -/
theorem mkRowVec_inj {e c q a t e2 c2 q2 a2 t2 : ℚ}
    (h : mkRowVec e c q a t = mkRowVec e2 c2 q2 a2 t2) :
    e = e2 ∧ c = c2 ∧ q = q2 ∧ a = a2 ∧ t = t2 := by
  simp only [mkRowVec, Row.mk.injEq] at h
  exact ⟨h.1, h.2.1, h.2.2.1, h.2.2.2.1, h.2.2.2.2.1⟩

/-- A scalar row determines the parameter tuple that produced it. -/
theorem mkRowScalar_inj {e c q a t e2 c2 q2 a2 t2 : ℚ}
    (h : mkRowScalar e c q a t = mkRowScalar e2 c2 q2 a2 t2) :
    e = e2 ∧ c = c2 ∧ q = q2 ∧ a = a2 ∧ t = t2 := by
  simp only [mkRowScalar, Row.mk.injEq] at h
  exact ⟨h.1, h.2.1, h.2.2.1, h.2.2.2.1, h.2.2.2.2.1⟩

/-- Counting occurrences in a `flatMap` over a duplicate-free index list
when only one index can contribute. -/
theorem count_flatMap_single {α β : Type} [DecidableEq α] [DecidableEq β]
    (l : List α) (f : α → List β) (x : β) (a : α) (ha : a ∈ l)
    (hnd : l.Nodup) (hzero : ∀ b ∈ l, b ≠ a → x ∉ f b) :
    (l.flatMap f).count x = (f a).count x := by
  induction l with
  | nil => cases ha
  | cons b l ih =>
    rcases List.mem_cons.1 ha with rfl | ha2
    · have h0 : (l.flatMap f).count x = 0 := by
        rw [List.count_eq_zero]
        intro hx
        obtain ⟨b2, hb2, hxb2⟩ := List.mem_flatMap.1 hx
        have hbb : b2 ≠ a := fun h => (List.nodup_cons.1 hnd).1 (h ▸ hb2)
        exact hzero b2 (List.mem_cons_of_mem a hb2) hbb hxb2
      simp [List.count_append, h0]
    · have hb : b ≠ a := by
        rintro rfl
        exact (List.nodup_cons.1 hnd).1 ha2
      have h0 : (f b).count x = 0 :=
        List.count_eq_zero.2 (hzero b (List.mem_cons_self _ _) hb)
      have := ih ha2 (List.nodup_cons.1 hnd).2
        (fun b2 hb2 => hzero b2 (List.mem_cons_of_mem b hb2))
      simp [List.count_append, h0, this]

/-- Length of a `flatMap` whose pieces all have the same length. -/
theorem length_flatMap_const {α β : Type} (l : List α) (f : α → List β)
    (k : ℕ) (h : ∀ a ∈ l, (f a).length = k) :
    (l.flatMap f).length = l.length * k := by
  induction l with
  | nil => simp
  | cons a l ih =>
    have h2 := ih fun b hb => h b (List.mem_cons_of_mem a hb)
    rw [List.flatMap_cons, List.length_append, h a (List.mem_cons_self _ _),
      h2, List.length_cons]
    ring

/-- Row count of the vectorized table. -/
theorem length_make_df_cost_vec (es cs qs as ts : List ℚ) :
    (make_df_cost_vec es cs qs as ts).length =
      es.length * cs.length * qs.length * as.length * ts.length := by
  rw [make_df_cost_vec]
  rw [length_flatMap_const _ _
    (as.length * (qs.length * (es.length * cs.length)))]
  · ring
  · intro t ht
    rw [length_flatMap_const _ _ (qs.length * (es.length * cs.length))]
    intro a ha
    rw [length_flatMap_const _ _ (es.length * cs.length)]
    intro q hq
    rw [length_flatMap_const _ _ cs.length]
    intro e he
    exact List.length_map ..

/-- Row count of the scalar table. -/
theorem length_make_df_cost (e t : ℚ) (cs qs as : List ℚ) (l : List Row)
    (hl : make_df_cost e cs qs as t = .ok l) :
    l.length = cs.length * qs.length * as.length := by
  obtain ⟨rfl, -⟩ := (make_df_cost_ok_iff e t cs qs as l).1 hl
  rw [length_flatMap_const _ _ (qs.length * as.length)]
  · ring
  · intro c hc
    rw [length_flatMap_const _ _ as.length]
    intro q hq
    exact List.length_map ..

/-- With duplicate-free inputs, each parameter tuple's row occurs exactly
once in the vectorized table. -/
theorem count_make_df_cost_vec (es cs qs as ts : List ℚ)
    (hes : es.Nodup) (hcs : cs.Nodup) (hqs : qs.Nodup) (hasn : as.Nodup)
    (hts : ts.Nodup) (e0 c0 q0 a0 t0 : ℚ) (he : e0 ∈ es) (hc : c0 ∈ cs)
    (hq : q0 ∈ qs) (ha : a0 ∈ as) (ht : t0 ∈ ts) :
    (make_df_cost_vec es cs qs as ts).count (mkRowVec e0 c0 q0 a0 t0)
      = 1 := by
  have zt : ∀ t ∈ ts, t ≠ t0 → mkRowVec e0 c0 q0 a0 t0 ∉
      (as.flatMap fun a => qs.flatMap fun q => es.flatMap fun e =>
        cs.map fun c => mkRowVec e c q a t) := by
    intro t _ hne hmem
    simp only [List.mem_flatMap, List.mem_map] at hmem
    obtain ⟨a, -, q, -, e, -, c, -, h⟩ := hmem
    exact hne (mkRowVec_inj h).2.2.2.2
  rw [make_df_cost_vec, count_flatMap_single _ _ _ t0 ht hts zt]
  have za : ∀ a ∈ as, a ≠ a0 → mkRowVec e0 c0 q0 a0 t0 ∉
      (qs.flatMap fun q => es.flatMap fun e =>
        cs.map fun c => mkRowVec e c q a t0) := by
    intro a _ hne hmem
    simp only [List.mem_flatMap, List.mem_map] at hmem
    obtain ⟨q, -, e, -, c, -, h⟩ := hmem
    exact hne (mkRowVec_inj h).2.2.2.1
  rw [count_flatMap_single _ _ _ a0 ha hasn za]
  have zq : ∀ q ∈ qs, q ≠ q0 → mkRowVec e0 c0 q0 a0 t0 ∉
      (es.flatMap fun e => cs.map fun c => mkRowVec e c q a0 t0) := by
    intro q _ hne hmem
    simp only [List.mem_flatMap, List.mem_map] at hmem
    obtain ⟨e, -, c, -, h⟩ := hmem
    exact hne (mkRowVec_inj h).2.2.1
  rw [count_flatMap_single _ _ _ q0 hq hqs zq]
  have ze : ∀ e ∈ es, e ≠ e0 → mkRowVec e0 c0 q0 a0 t0 ∉
      (cs.map fun c => mkRowVec e c q0 a0 t0) := by
    intro e _ hne hmem
    simp only [List.mem_map] at hmem
    obtain ⟨c, -, h⟩ := hmem
    exact hne (mkRowVec_inj h).1
  rw [count_flatMap_single _ _ _ e0 he hes ze]
  have hinj : Function.Injective fun c => mkRowVec e0 c q0 a0 t0 :=
    fun c c2 h => (mkRowVec_inj h).2.1
  rw [List.count_map_of_injective _ _ hinj]
  exact List.count_eq_one_of_mem hcs hc

/-- With duplicate-free inputs, each parameter tuple's row occurs exactly
once in the scalar table. -/
theorem count_make_df_cost (e t : ℚ) (cs qs as : List ℚ)
    (hcs : cs.Nodup) (hqs : qs.Nodup) (hasn : as.Nodup)
    (c0 q0 a0 : ℚ) (hc : c0 ∈ cs) (hq : q0 ∈ qs) (ha : a0 ∈ as)
    (l : List Row) (hl : make_df_cost e cs qs as t = .ok l) :
    l.count (mkRowScalar e c0 q0 a0 t) = 1 := by
  obtain ⟨rfl, -⟩ := (make_df_cost_ok_iff e t cs qs as l).1 hl
  have zc : ∀ c ∈ cs, c ≠ c0 → mkRowScalar e c0 q0 a0 t ∉
      (qs.flatMap fun q => as.map fun a => mkRowScalar e c q a t) := by
    intro c _ hne hmem
    simp only [List.mem_flatMap, List.mem_map] at hmem
    obtain ⟨q, -, a, -, h⟩ := hmem
    exact hne (mkRowScalar_inj h).2.1
  rw [count_flatMap_single _ _ _ c0 hc hcs zc]
  have zq : ∀ q ∈ qs, q ≠ q0 → mkRowScalar e c0 q0 a0 t ∉
      (as.map fun a => mkRowScalar e c0 q a t) := by
    intro q _ hne hmem
    simp only [List.mem_map] at hmem
    obtain ⟨a, -, h⟩ := hmem
    exact hne (mkRowScalar_inj h).2.2.1
  rw [count_flatMap_single _ _ _ q0 hq hqs zq]
  have hinj : Function.Injective fun a => mkRowScalar e c0 q0 a t :=
    fun a a2 h => (mkRowScalar_inj h).2.2.2.1
  rw [List.count_map_of_injective _ _ hinj]
  exact List.count_eq_one_of_mem hasn ha

/-- Claim C2 (amended): provided every input collection is duplicate-free,
both variants of `make_df_cost` return the full cartesian product: the
scalar variant (scalar `employees` and `tokens_per_word` acting as
singleton collections) yields `|calls|·|q_length|·|a_length|` rows, the
vectorized variant `|employees|·|calls|·|q_length|·|a_length|·
|tokens_per_word|` rows; every input tuple appears as the parameter values
of exactly one row, and every row comes from an input tuple.  (Without the
duplicate-freedom proviso a duplicated input value duplicates rows, see the
counterexample.) -/
theorem C2_amended_cartesian_product_unique_complete (e t : ℚ)
    (cs qs as : List ℚ) (es cs2 qs2 as2 ts : List ℚ)
    (hcs : cs.Nodup) (hqs : qs.Nodup) (hasn : as.Nodup)
    (hne : cs ≠ [] ∧ qs ≠ [] ∧ as ≠ [])
    (hes2 : es.Nodup) (hcs2 : cs2.Nodup) (hqs2 : qs2.Nodup)
    (has2 : as2.Nodup) (hts2 : ts.Nodup) :
    (∃ l, make_df_cost e cs qs as t = Except.ok l ∧
      l.length = cs.length * qs.length * as.length ∧
      (∀ c ∈ cs, ∀ q ∈ qs, ∀ a ∈ as,
        l.count (mkRowScalar e c q a t) = 1) ∧
      (∀ r ∈ l, ∃ c ∈ cs, ∃ q ∈ qs, ∃ a ∈ as,
        r = mkRowScalar e c q a t)) ∧
    ((make_df_cost_vec es cs2 qs2 as2 ts).length =
        es.length * cs2.length * qs2.length * as2.length * ts.length ∧
      (∀ e2 ∈ es, ∀ c ∈ cs2, ∀ q ∈ qs2, ∀ a ∈ as2, ∀ t2 ∈ ts,
        (make_df_cost_vec es cs2 qs2 as2 ts).count
          (mkRowVec e2 c q a t2) = 1) ∧
      (∀ r ∈ make_df_cost_vec es cs2 qs2 as2 ts,
        ∃ e2 ∈ es, ∃ c ∈ cs2, ∃ q ∈ qs2, ∃ a ∈ as2, ∃ t2 ∈ ts,
          r = mkRowVec e2 c q a t2)) := by
  obtain ⟨hc1, hq1, ha1⟩ := hne
  obtain ⟨c0, hc0⟩ := List.exists_mem_of_ne_nil cs hc1
  obtain ⟨q0, hq0⟩ := List.exists_mem_of_ne_nil qs hq1
  obtain ⟨a0, ha0⟩ := List.exists_mem_of_ne_nil as ha1
  have hok : make_df_cost e cs qs as t =
      Except.ok (cs.flatMap fun c => qs.flatMap fun q => as.map fun a =>
        mkRowScalar e c q a t) := by
    rw [make_df_cost_ok_iff]
    refine ⟨rfl, fun hnil => ?_⟩
    have : mkRowScalar e c0 q0 a0 t ∈
        (cs.flatMap fun c => qs.flatMap fun q => as.map fun a =>
          mkRowScalar e c q a t) := by
      simp only [List.mem_flatMap, List.mem_map]
      exact ⟨c0, hc0, q0, hq0, a0, ha0, rfl⟩
    rw [hnil] at this
    cases this
  refine ⟨⟨_, hok, length_make_df_cost e t cs qs as _ hok, ?_, ?_⟩,
    length_make_df_cost_vec es cs2 qs2 as2 ts, ?_, ?_⟩
  · intro c hc q hq a ha
    exact count_make_df_cost e t cs qs as hcs hqs hasn c q a hc hq ha _ hok
  · intro r hr
    exact mem_make_df_cost e t cs qs as _ hok r hr
  · intro e2 he2 c hc q hq a ha t2 ht2
    exact count_make_df_cost_vec es cs2 qs2 as2 ts hes2 hcs2 hqs2 has2 hts2
      e2 c q a t2 he2 hc hq ha ht2
  · intro r hr
    exact mem_make_df_cost_vec es cs2 qs2 as2 ts r hr

/-- Witness for `C2_amended_cartesian_product_unique_complete` at a
concrete duplicate-free instance. -/
theorem C2_amended_cartesian_product_unique_complete_witness :
    (∃ l, make_df_cost 800 [50, 100] [50] [100] 1 = Except.ok l ∧
      l.length = 2 * 1 * 1 ∧
      (∀ c ∈ [(50 : ℚ), 100], ∀ q ∈ [(50 : ℚ)], ∀ a ∈ [(100 : ℚ)],
        l.count (mkRowScalar 800 c q a 1) = 1) ∧
      (∀ r ∈ l, ∃ c ∈ [(50 : ℚ), 100], ∃ q ∈ [(50 : ℚ)],
        ∃ a ∈ [(100 : ℚ)], r = mkRowScalar 800 c q a 1)) ∧
    ((make_df_cost_vec [800] [50, 100] [50] [100] [1]).length =
        1 * 2 * 1 * 1 * 1 ∧
      (∀ e2 ∈ [(800 : ℚ)], ∀ c ∈ [(50 : ℚ), 100], ∀ q ∈ [(50 : ℚ)],
        ∀ a ∈ [(100 : ℚ)], ∀ t2 ∈ [(1 : ℚ)],
        (make_df_cost_vec [800] [50, 100] [50] [100] [1]).count
          (mkRowVec e2 c q a t2) = 1) ∧
      (∀ r ∈ make_df_cost_vec [800] [50, 100] [50] [100] [1],
        ∃ e2 ∈ [(800 : ℚ)], ∃ c ∈ [(50 : ℚ), 100], ∃ q ∈ [(50 : ℚ)],
          ∃ a ∈ [(100 : ℚ)], ∃ t2 ∈ [(1 : ℚ)],
          r = mkRowVec e2 c q a t2)) := by
  have h := C2_amended_cartesian_product_unique_complete 800 1
    [50, 100] [50] [100] [800] [50, 100] [50] [100] [1]
    (by norm_num) (by norm_num) (by norm_num)
    ⟨by simp, by simp, by simp⟩
    (by norm_num) (by norm_num) (by norm_num) (by norm_num) (by norm_num)
  simpa using h

/-- On non-empty inputs the scalar variant succeeds with the loop output. -/
theorem make_df_cost_eq_ok (e t : ℚ) (cs qs as : List ℚ)
    (hc : cs ≠ []) (hq : qs ≠ []) (ha : as ≠ []) :
    make_df_cost e cs qs as t =
      Except.ok (cs.flatMap fun c => qs.flatMap fun q => as.map fun a =>
        mkRowScalar e c q a t) := by
  obtain ⟨c0, hc0⟩ := List.exists_mem_of_ne_nil cs hc
  obtain ⟨q0, hq0⟩ := List.exists_mem_of_ne_nil qs hq
  obtain ⟨a0, ha0⟩ := List.exists_mem_of_ne_nil as ha
  rw [make_df_cost_ok_iff]
  refine ⟨rfl, fun hnil => ?_⟩
  have : mkRowScalar e c0 q0 a0 t ∈
      (cs.flatMap fun c => qs.flatMap fun q => as.map fun a =>
        mkRowScalar e c q a t) := by
    simp only [List.mem_flatMap, List.mem_map]
    exact ⟨c0, hc0, q0, hq0, a0, ha0, rfl⟩
  rw [hnil] at this
  cases this

/-- Counting in a `flatMap` where only one index value can contribute and
that value contributes `k` occurrences each time it appears. -/
theorem count_flatMap_factor {α β : Type} [DecidableEq α] [DecidableEq β]
    (l : List α) (f : α → List β) (x : β) (a0 : α) (k : ℕ)
    (hk : (f a0).count x = k) (hz : ∀ b, b ≠ a0 → x ∉ f b) :
    (l.flatMap f).count x = l.count a0 * k := by
  induction l with
  | nil => simp
  | cons b l ih =>
    by_cases hb : b = a0
    · subst hb
      rw [List.flatMap_cons, List.count_append, hk, ih,
        List.count_cons_self, Nat.succ_mul, Nat.add_comm]
    · have h0 : (f b).count x = 0 := List.count_eq_zero.2 (hz b hb)
      rw [List.flatMap_cons, List.count_append, h0, ih,
        List.count_cons_of_ne (Ne.symm hb), Nat.zero_add]

/-- At `employees = 800` the two row builders coincide (the scalar
variant's hard-coded 800 equals the employees value). -/
theorem mkRowScalar_eq_mkRowVec_800 (c q a t : ℚ) :
    mkRowScalar 800 c q a t = mkRowVec 800 c q a t := rfl

/-- Multiplicity of a parameter tuple's row in the scalar loop output. -/
theorem count_scalar_body (e t : ℚ) (cs qs as : List ℚ) (c0 q0 a0 : ℚ) :
    (cs.flatMap fun c => qs.flatMap fun q => as.map fun a =>
        mkRowScalar e c q a t).count (mkRowScalar e c0 q0 a0 t) =
      cs.count c0 * (qs.count q0 * as.count a0) := by
  have hk2 : (as.map fun a => mkRowScalar e c0 q0 a t).count
      (mkRowScalar e c0 q0 a0 t) = as.count a0 := by
    have hinj : Function.Injective fun a => mkRowScalar e c0 q0 a t :=
      fun a a2 h => (mkRowScalar_inj h).2.2.2.1
    rw [List.count_map_of_injective _ _ hinj]
  have hk : (qs.flatMap fun q => as.map fun a =>
      mkRowScalar e c0 q a t).count (mkRowScalar e c0 q0 a0 t) =
      qs.count q0 * as.count a0 := by
    refine count_flatMap_factor _ _ _ q0 _ hk2 ?_
    intro q hq hmem
    simp only [List.mem_map] at hmem
    obtain ⟨a, -, h⟩ := hmem
    exact hq (mkRowScalar_inj h).2.2.1
  refine count_flatMap_factor _ _ _ c0 _ hk ?_
  intro c hc hmem
  simp only [List.mem_flatMap, List.mem_map] at hmem
  obtain ⟨q, -, a, -, h⟩ := hmem
  exact hc (mkRowScalar_inj h).2.1

/-- Multiplicity of a parameter tuple's row in the vectorized table with
singleton employees and tokens-per-word collections. -/
theorem count_vec_body_800 (t : ℚ) (cs qs as : List ℚ) (c0 q0 a0 : ℚ) :
    (make_df_cost_vec [800] cs qs as [t]).count (mkRowVec 800 c0 q0 a0 t) =
      as.count a0 * (qs.count q0 * cs.count c0) := by
  rw [make_df_cost_vec]
  simp only [List.flatMap_cons, List.flatMap_nil, List.append_nil]
  have hk2 : ∀ q a, (cs.map fun c => mkRowVec 800 c q a t).count
      (mkRowVec 800 c0 q0 a0 t) =
        if q = q0 ∧ a = a0 then cs.count c0 else 0 := by
    intro q a
    by_cases h : q = q0 ∧ a = a0
    · obtain ⟨rfl, rfl⟩ := h
      have hinj : Function.Injective fun c => mkRowVec 800 c q a t :=
        fun c c2 hcc => (mkRowVec_inj hcc).2.1
      rw [List.count_map_of_injective _ _ hinj, if_pos ⟨rfl, rfl⟩]
    · rw [if_neg h, List.count_eq_zero]
      intro hmem
      simp only [List.mem_map] at hmem
      obtain ⟨c, -, hcc⟩ := hmem
      obtain ⟨-, -, hqq, haa, -⟩ := mkRowVec_inj hcc
      exact h ⟨hqq, haa⟩
  have hk : ∀ a, (qs.flatMap fun q => cs.map fun c =>
      mkRowVec 800 c q a t).count (mkRowVec 800 c0 q0 a0 t) =
        if a = a0 then qs.count q0 * cs.count c0 else 0 := by
    intro a
    by_cases h : a = a0
    · subst h
      rw [if_pos rfl]
      refine count_flatMap_factor _ _ _ q0 _ ?_ ?_
      · rw [hk2 q0 a, if_pos ⟨rfl, rfl⟩]
      · intro q hq hmem
        simp only [List.mem_map] at hmem
        obtain ⟨c, -, hcc⟩ := hmem
        exact hq (mkRowVec_inj hcc).2.2.1
    · rw [if_neg h, List.count_eq_zero]
      intro hmem
      simp only [List.mem_flatMap, List.mem_map] at hmem
      obtain ⟨q, -, c, -, hcc⟩ := hmem
      exact h (mkRowVec_inj hcc).2.2.2.1
  refine Eq.trans (count_flatMap_factor _ _ _ a0 (qs.count q0 * cs.count c0)
    ?_ ?_) rfl
  · rw [hk a0, if_pos rfl]
  · intro a haa hmem
    simp only [List.mem_flatMap, List.mem_map] at hmem
    obtain ⟨q, -, c, -, hcc⟩ := hmem
    exact haa (mkRowVec_inj hcc).2.2.2.1

/-- Claim C9: with `employees = 800` (resp. the singleton collection
`[800]`), a scalar `tokens_per_word` (resp. the singleton `[t]`) and
identical non-empty `calls`, `q_length` and `a_length` collections, the
scalar-loop variant and the meshgrid-vectorized variant of `make_df_cost`
produce exactly the same multiset of rows. -/
theorem C9_scalar_and_vectorized_variants_agree_at_800 (t : ℚ)
    (cs qs as : List ℚ) (hc : cs ≠ []) (hq : qs ≠ []) (ha : as ≠ []) :
    ∃ l, make_df_cost 800 cs qs as t = Except.ok l ∧
      (l : Multiset Row) =
        (make_df_cost_vec [800] cs qs as [t] : Multiset Row) := by
  refine ⟨_, make_df_cost_eq_ok 800 t cs qs as hc hq ha, ?_⟩
  refine Multiset.ext.2 fun x => ?_
  rw [Multiset.coe_count, Multiset.coe_count]
  by_cases hx : x = mkRowVec 800 x.calls x.avg_words_per_q x.avg_words_per_a t
  · obtain ⟨c0, q0, a0, hx2⟩ : ∃ c0 q0 a0, x = mkRowVec 800 c0 q0 a0 t :=
      ⟨_, _, _, hx⟩
    subst hx2
    refine Eq.trans (count_scalar_body 800 t cs qs as c0 q0 a0) ?_
    rw [count_vec_body_800]
    ring
  · rw [List.count_eq_zero.2 ?_, List.count_eq_zero.2 ?_]
    · intro hmem
      obtain ⟨e2, he2, c, -, q, -, a, -, t2, ht2, hx2⟩ :=
        mem_make_df_cost_vec [800] cs qs as [t] x hmem
      rw [List.mem_singleton] at he2 ht2
      subst he2 ht2
      exact hx (by rw [hx2]; rfl)
    · intro hmem
      simp only [List.mem_flatMap, List.mem_map] at hmem
      obtain ⟨c, -, q, -, a, -, hx2⟩ := hmem
      exact hx (by rw [← hx2]; rfl)

/-- Witness for `C9_scalar_and_vectorized_variants_agree_at_800`. -/
theorem C9_scalar_and_vectorized_variants_agree_at_800_witness :
    ∃ l, make_df_cost 800 [50] [60] [70] 1 = Except.ok l ∧
      (l : Multiset Row) =
        (make_df_cost_vec [800] [50] [60] [70] [1] : Multiset Row) :=
  C9_scalar_and_vectorized_variants_agree_at_800 1 [50] [60] [70]
    (by simp) (by simp) (by simp)

/-- Replacing a column in place puts the new values where the first
matching column was. -/
theorem find?_map_replace (df : DataFrame) (name : String) (vals : List ℚ)
    (hany : df.any (fun c => c.1 == name) = true) :
    (df.map fun c => if c.1 = name then (name, vals) else c).find?
      (fun c => c.1 == name) = some (name, vals) := by
  induction df with
  | nil => cases hany
  | cons c df ih =>
    rw [List.map_cons]
    by_cases hc : c.1 = name
    · rw [if_pos hc, List.find?_cons_of_pos _ (by simp)]
    · rw [if_neg hc, List.find?_cons_of_neg _ (by simpa using hc)]
      simp only [List.any_cons, Bool.or_eq_true, List.any_eq_true] at hany
      rcases hany with hc2 | ⟨x, hx, hpx⟩
      · exact absurd (by simpa using hc2) hc
      · exact ih (List.any_eq_true.2 ⟨x, hx, hpx⟩)

/-- Replacing one column leaves lookups of other names unchanged. -/
theorem find?_map_replace_ne (df : DataFrame) (name : String)
    (vals : List ℚ) (name2 : String) (hne : name2 ≠ name) :
    (df.map fun c => if c.1 = name then (name, vals) else c).find?
        (fun c => c.1 == name2) =
      df.find? (fun c => c.1 == name2) := by
  induction df with
  | nil => rfl
  | cons c df ih =>
    rw [List.map_cons]
    by_cases hc : c.1 = name
    · rw [if_pos hc, List.find?_cons_of_neg _ (by simpa using Ne.symm hne),
        List.find?_cons_of_neg _ (by simp [hc]; exact Ne.symm hne), ih]
    · by_cases hm : c.1 = name2
      · rw [if_neg hc, List.find?_cons_of_pos _ (by simp [hm]),
          List.find?_cons_of_pos _ (by simp [hm])]
      · rw [if_neg hc, List.find?_cons_of_neg _ (by simpa using hm),
          List.find?_cons_of_neg _ (by simpa using hm), ih]

/-- What a successful column assignment guarantees: the length check
passed, the row count is unchanged, the assigned column reads back, and
all other columns read as before. -/
theorem setCol_ok_spec (df : DataFrame) (name : String) (vals : List ℚ)
    (df2 : DataFrame) (h : setCol df name vals = .ok df2) :
    vals.length = nRows df ∧ nRows df2 = nRows df ∧
    getCol df2 name = .ok vals ∧
    ∀ name2, name2 ≠ name → getCol df2 name2 = getCol df name2 := by
  rw [setCol] at h
  split at h
  · rename_i hlen
    split at h
    · rename_i hany
      obtain rfl : (df.map fun c => if c.1 = name then (name, vals) else c)
          = df2 := by injection h
      refine ⟨hlen, ?_, ?_, ?_⟩
      · match df, hany with
        | c :: df, _ =>
          rw [List.map_cons]
          by_cases hc : c.1 = name
          · rw [if_pos hc]
            simpa [nRows] using hlen
          · rw [if_neg hc]
            simp [nRows]
      · rw [getCol, find?_map_replace df name vals hany]
      · intro name2 hne
        rw [getCol, getCol, find?_map_replace_ne df name vals name2 hne]
    · rename_i hany
      obtain rfl : df ++ [(name, vals)] = df2 := by injection h
      have hnone : df.find? (fun c => c.1 == name) = none := by
        rw [List.find?_eq_none]
        intro x hx hpx
        exact hany (List.any_eq_true.2 ⟨x, hx, hpx⟩)
      refine ⟨hlen, ?_, ?_, ?_⟩
      · match df, hlen with
        | [], hlen => simpa [nRows] using hlen
        | c :: df, _ => simp [nRows]
      · rw [getCol, List.find?_append, hnone]
        simp
      · intro name2 hne
        rw [getCol, getCol, List.find?_append]
        have h1 : ([((name : String), vals)].find?
            (fun c => c.1 == name2)) = none := by
          rw [List.find?_eq_none]
          intro x hx
          rw [List.mem_singleton] at hx
          subst hx
          simpa using Ne.symm hne
        rw [h1]
        cases df.find? (fun c => c.1 == name2) <;> simp
  · cases h

/-- A length-respecting column assignment succeeds. -/
theorem setCol_isOk (df : DataFrame) (name : String) (vals : List ℚ)
    (hlen : vals.length = nRows df) :
    ∃ df2, setCol df name vals = .ok df2 := by
  rw [setCol, if_pos hlen]
  by_cases hany : df.any (fun c => c.1 == name) = true
  · rw [if_pos hany]
    exact ⟨_, rfl⟩
  · rw [if_neg hany]
    exact ⟨_, rfl⟩

/-- A length-violating column assignment fails. -/
theorem setCol_isError (df : DataFrame) (name : String) (vals : List ℚ)
    (hlen : vals.length ≠ nRows df) :
    setCol df name vals =
      .error "Length of values does not match length of index" := by
  rw [setCol, if_neg hlen]

/-- Bind on a successful `Except` computation. -/
theorem except_bind_ok {α β : Type} (a : α) (f : α → Except String β) :
    (Except.ok a >>= f) = f a := rfl

/-- Bind propagates errors. -/
theorem except_bind_error {α β : Type} (e : String)
    (f : α → Except String β) :
    ((Except.error e : Except String α) >>= f) = Except.error e := rfl

/-- Broadcasting against a single pricing entry multiplies every row by
that entry. -/
theorem npMul_singleton (xs : List ℚ) (y : ℚ) :
    npMul xs [y] = .ok (xs.map fun x => x * y) := by
  rcases xs with - | ⟨x, - | ⟨x2, xs⟩⟩ <;> rfl

/-- `calculate_total_cost` with a single requested model performs exactly
one loop iteration. -/
theorem calculate_total_cost_single (df : DataFrame) (llms : LlmTable)
    (model cs cr ts tr : String) :
    calculate_total_cost df llms [model] cs cr ts tr =
      applyModel llms cs cr ts tr df model := by
  show (applyModel llms cs cr ts tr df model >>= fun b =>
    List.foldlM (applyModel llms cs cr ts tr) b []) = _
  cases applyModel llms cs cr ts tr df model <;> rfl

/-- The question- and answer-cost column names never coincide. -/
theorem questionCol_ne_answerCol (m : String) :
    questionCol m ≠ answerCol m := by
  intro h
  have h2 := congrArg String.length h
  rw [questionCol, answerCol, String.length_append, String.length_append,
    String.length_append, String.length_append] at h2
  have e1 : ("Question cost ").length = 14 := by decide
  have e2 : ("Answer cost ").length = 12 := by decide
  rw [e1, e2] at h2
  omega

/-- The question- and total-cost column names never coincide. -/
theorem questionCol_ne_totalCol (m : String) :
    questionCol m ≠ totalCol m := by
  intro h
  have h2 := congrArg String.length h
  rw [questionCol, totalCol, String.length_append, String.length_append,
    String.length_append, String.length_append] at h2
  have e1 : ("Question cost ").length = 14 := by decide
  have e2 : ("Total cost ").length = 11 := by decide
  rw [e1, e2] at h2
  omega

/-- The answer- and total-cost column names never coincide. -/
theorem answerCol_ne_totalCol (m : String) :
    answerCol m ≠ totalCol m := by
  intro h
  have h2 := congrArg String.length h
  rw [answerCol, totalCol, String.length_append, String.length_append,
    String.length_append, String.length_append] at h2
  have e1 : ("Answer cost ").length = 12 := by decide
  have e2 : ("Total cost ").length = 11 := by decide
  rw [e1, e2] at h2
  omega

/-- Core of a single loop iteration when the model has exactly one pricing
entry: it succeeds and the three generated columns hold the per-row
products and their sum. -/
theorem applyModel_one_entry (llms : LlmTable) (model cs cr ts tr : String)
    (df : DataFrame) (sent recv : List ℚ) (s r : ℚ)
    (hts : getCol df ts = .ok sent)
    (htr : getCol df tr = .ok recv)
    (hslen : sent.length = nRows df)
    (hrlen : recv.length = nRows df)
    (hs : locModel llms model cs = .ok [s])
    (hr : locModel llms model cr = .ok [r])
    (htrq : tr ≠ questionCol model) :
    ∃ out, applyModel llms cs cr ts tr df model = .ok out ∧
      getCol out (questionCol model) = .ok (sent.map fun x => x * s) ∧
      getCol out (answerCol model) = .ok (recv.map fun x => x * r) ∧
      getCol out (totalCol model) = .ok (List.zipWith (fun x y => x + y)
        (sent.map fun x => x * s) (recv.map fun x => x * r)) ∧
      nRows out = nRows df ∧
      ∀ name, name ≠ questionCol model → name ≠ answerCol model →
        name ≠ totalCol model → getCol out name = getCol df name := by
  obtain ⟨df1, hdf1⟩ := setCol_isOk df (questionCol model)
    (sent.map fun x => x * s) (by simpa using hslen)
  obtain ⟨hlen1, hn1, hget1, hother1⟩ := setCol_ok_spec _ _ _ _ hdf1
  obtain ⟨df2, hdf2⟩ := setCol_isOk df1 (answerCol model)
    (recv.map fun x => x * r) (by simp [hn1, hrlen])
  obtain ⟨hlen2, hn2, hget2, hother2⟩ := setCol_ok_spec _ _ _ _ hdf2
  obtain ⟨out, hout⟩ := setCol_isOk df2 (totalCol model)
    (List.zipWith (fun x y => x + y) (sent.map fun x => x * s)
      (recv.map fun x => x * r)) (by
        rw [List.length_zipWith, List.length_map, List.length_map,
          hslen, hrlen, hn2, hn1]
        simp)
  obtain ⟨hlen3, hn3, hget3, hother3⟩ := setCol_ok_spec _ _ _ _ hout
  have hchain : applyModel llms cs cr ts tr df model = .ok out := by
    rw [applyModel, hts, except_bind_ok, hs, except_bind_ok,
      npMul_singleton, except_bind_ok, hdf1, except_bind_ok,
      hother1 tr htrq, htr, except_bind_ok, hr, except_bind_ok,
      npMul_singleton, except_bind_ok, hdf2, except_bind_ok,
      hother2 (questionCol model) (questionCol_ne_answerCol model),
      hget1, except_bind_ok, hget2, except_bind_ok, hout]
  refine ⟨out, hchain, ?_, ?_, hget3, ?_, ?_⟩
  · rw [hother3 (questionCol model) (questionCol_ne_totalCol model),
      hother2 (questionCol model) (questionCol_ne_answerCol model), hget1]
  · rw [hother3 (answerCol model) (answerCol_ne_totalCol model), hget2]
  · rw [hn3, hn2, hn1]
  · intro name hq ha ht
    rw [hother3 name ht, hother2 name ha, hother1 name hq]

/-- Distinct model ids get distinct question-cost column names. -/
theorem questionCol_inj {m m2 : String} (h : questionCol m = questionCol m2)
    : m = m2 := by
  have h2 := congrArg String.data h
  rw [questionCol, questionCol] at h2
  simp only [String.data_append] at h2
  rw [List.append_assoc, List.append_assoc] at h2
  exact String.ext (List.append_cancel_right (List.append_cancel_left h2))

/-- Distinct model ids get distinct answer-cost column names. -/
theorem answerCol_inj {m m2 : String} (h : answerCol m = answerCol m2) :
    m = m2 := by
  have h2 := congrArg String.data h
  rw [answerCol, answerCol] at h2
  simp only [String.data_append] at h2
  rw [List.append_assoc, List.append_assoc] at h2
  exact String.ext (List.append_cancel_right (List.append_cancel_left h2))

/-- Distinct model ids get distinct total-cost column names. -/
theorem totalCol_inj {m m2 : String} (h : totalCol m = totalCol m2) :
    m = m2 := by
  have h2 := congrArg String.data h
  rw [totalCol, totalCol] at h2
  simp only [String.data_append] at h2
  rw [List.append_assoc, List.append_assoc] at h2
  exact String.ext (List.append_cancel_right (List.append_cancel_left h2))

/-- A question-cost column name never equals any answer-cost column
name (the fixed prefixes differ). -/
theorem questionCol_ne_answerCol_any (m m2 : String) :
    questionCol m ≠ answerCol m2 := by
  intro h
  have h2 := congrArg (fun s => s.data.take 11) h
  rw [questionCol, answerCol] at h2
  simp only [String.data_append, List.append_assoc] at h2
  rw [List.take_append_of_le_length (by decide),
    List.take_append_of_le_length (by decide)] at h2
  exact absurd h2 (by decide)

/-- A question-cost column name never equals any total-cost column name. -/
theorem questionCol_ne_totalCol_any (m m2 : String) :
    questionCol m ≠ totalCol m2 := by
  intro h
  have h2 := congrArg (fun s => s.data.take 11) h
  rw [questionCol, totalCol] at h2
  simp only [String.data_append, List.append_assoc] at h2
  rw [List.take_append_of_le_length (by decide),
    List.take_append_of_le_length (by decide)] at h2
  exact absurd h2 (by decide)

/-- An answer-cost column name never equals any total-cost column name. -/
theorem answerCol_ne_totalCol_any (m m2 : String) :
    answerCol m ≠ totalCol m2 := by
  intro h
  have h2 := congrArg (fun s => s.data.take 11) h
  rw [answerCol, totalCol] at h2
  simp only [String.data_append, List.append_assoc] at h2
  rw [List.take_append_of_le_length (by decide),
    List.take_append_of_le_length (by decide)] at h2
  exact absurd h2 (by decide)

/-- Folding the per-model loop over a duplicate-free model list, each
model having exactly one pricing entry and the two token columns not
colliding with any generated name: the loop succeeds, keeps the row count,
leaves unrelated columns unchanged, and fills the three cost columns of
every requested model. -/
theorem foldl_applyModel_spec (llms : LlmTable) (cs cr ts tr : String)
    (sFor rFor : String → ℚ) :
    ∀ (models : List String) (df : DataFrame) (sent recv : List ℚ),
    models.Nodup →
    (∀ m ∈ models, locModel llms m cs = .ok [sFor m]) →
    (∀ m ∈ models, locModel llms m cr = .ok [rFor m]) →
    (∀ m ∈ models, ts ≠ questionCol m ∧ ts ≠ answerCol m ∧
      ts ≠ totalCol m) →
    (∀ m ∈ models, tr ≠ questionCol m ∧ tr ≠ answerCol m ∧
      tr ≠ totalCol m) →
    getCol df ts = .ok sent → getCol df tr = .ok recv →
    sent.length = nRows df → recv.length = nRows df →
    ∃ out, List.foldlM (applyModel llms cs cr ts tr) df models = .ok out ∧
      nRows out = nRows df ∧
      (∀ name, (∀ m ∈ models, name ≠ questionCol m ∧ name ≠ answerCol m ∧
        name ≠ totalCol m) → getCol out name = getCol df name) ∧
      ∀ m ∈ models,
        getCol out (questionCol m) = .ok (sent.map fun x => x * sFor m) ∧
        getCol out (answerCol m) = .ok (recv.map fun x => x * rFor m) ∧
        getCol out (totalCol m) = .ok (List.zipWith (fun x y => x + y)
          (sent.map fun x => x * sFor m)
          (recv.map fun x => x * rFor m))
  | [], df, sent, recv, _, _, _, _, _, _, _, _, _ =>
    ⟨df, rfl, rfl, fun _ _ => rfl, fun m hm => absurd hm (by simp)⟩
  | m :: ms, df, sent, recv, hnd, hlocS, hlocR, hfts, hftr, hts, htr,
      hsl, hrl => by
    obtain ⟨df2, hdf2, hq2, ha2, ht2, hn2, hpres2⟩ :=
      applyModel_one_entry llms m cs cr ts tr df sent recv (sFor m)
        (rFor m) hts htr hsl hrl (hlocS m (by simp)) (hlocR m (by simp))
        (hftr m (by simp)).1
    have hts2 : getCol df2 ts = .ok sent := by
      rw [hpres2 ts (hfts m (by simp)).1 (hfts m (by simp)).2.1
        (hfts m (by simp)).2.2, hts]
    have htr2 : getCol df2 tr = .ok recv := by
      rw [hpres2 tr (hftr m (by simp)).1 (hftr m (by simp)).2.1
        (hftr m (by simp)).2.2, htr]
    obtain ⟨out, hout, hnout, hpres, hcols⟩ :=
      foldl_applyModel_spec llms cs cr ts tr sFor rFor ms df2 sent recv
        (List.nodup_cons.1 hnd).2
        (fun m2 hm2 => hlocS m2 (List.mem_cons_of_mem m hm2))
        (fun m2 hm2 => hlocR m2 (List.mem_cons_of_mem m hm2))
        (fun m2 hm2 => hfts m2 (List.mem_cons_of_mem m hm2))
        (fun m2 hm2 => hftr m2 (List.mem_cons_of_mem m hm2))
        hts2 htr2 (hsl.trans hn2.symm) (hrl.trans hn2.symm)
    refine ⟨out, ?_, ?_, ?_, ?_⟩
    · rw [show List.foldlM (applyModel llms cs cr ts tr) df (m :: ms) =
        (applyModel llms cs cr ts tr df m >>= fun b =>
          List.foldlM (applyModel llms cs cr ts tr) b ms) from rfl,
        hdf2, except_bind_ok, hout]
    · rw [hnout, hn2]
    · intro name hfresh
      rw [hpres name (fun m2 hm2 => hfresh m2 (List.mem_cons_of_mem m hm2)),
        hpres2 name (hfresh m (by simp)).1 (hfresh m (by simp)).2.1
          (hfresh m (by simp)).2.2]
    · intro m2 hm2
      rcases List.mem_cons.1 hm2 with rfl | hm3
      · have hne : ∀ m3 ∈ ms, m2 ≠ m3 := by
          intro m3 hm3 h
          exact (List.nodup_cons.1 hnd).1 (h ▸ hm3)
        refine ⟨?_, ?_, ?_⟩
        · rw [hpres (questionCol m2) (fun m3 hm3 =>
            ⟨fun h => hne m3 hm3 (questionCol_inj h),
             questionCol_ne_answerCol_any m2 m3,
             questionCol_ne_totalCol_any m2 m3⟩), hq2]
        · rw [hpres (answerCol m2) (fun m3 hm3 =>
            ⟨Ne.symm (questionCol_ne_answerCol_any m3 m2),
             fun h => hne m3 hm3 (answerCol_inj h),
             answerCol_ne_totalCol_any m2 m3⟩), ha2]
        · rw [hpres (totalCol m2) (fun m3 hm3 =>
            ⟨Ne.symm (questionCol_ne_totalCol_any m3 m2),
             Ne.symm (answerCol_ne_totalCol_any m3 m2),
             fun h => hne m3 hm3 (totalCol_inj h)⟩), ht2]
      · exact hcols m2 hm3

/-- Claim C5: for a scenario table holding the sent/received token
columns (with lengths matching the row count), a pricing table with
exactly one entry per requested model (rates `sFor m` and `rFor m`), a
duplicate-free model list, and token-column names distinct from the
generated cost-column names, `calculate_total_cost` succeeds and for each
requested model the question-cost column is the row-wise product of the
sent tokens with the sent rate, the answer-cost column the row-wise
product of the received tokens with the received rate, and the total-cost
column their row-wise sum. -/
theorem C5_per_model_cost_columns (df : DataFrame) (llms : LlmTable)
    (models : List String) (cs cr ts tr : String) (sent recv : List ℚ)
    (sFor rFor : String → ℚ)
    (hnd : models.Nodup)
    (hlocS : ∀ m ∈ models, locModel llms m cs = .ok [sFor m])
    (hlocR : ∀ m ∈ models, locModel llms m cr = .ok [rFor m])
    (hfts : ∀ m ∈ models, ts ≠ questionCol m ∧ ts ≠ answerCol m ∧
      ts ≠ totalCol m)
    (hftr : ∀ m ∈ models, tr ≠ questionCol m ∧ tr ≠ answerCol m ∧
      tr ≠ totalCol m)
    (hts : getCol df ts = .ok sent) (htr : getCol df tr = .ok recv)
    (hsl : sent.length = nRows df) (hrl : recv.length = nRows df) :
    ∃ out, calculate_total_cost df llms models cs cr ts tr = .ok out ∧
      ∀ m ∈ models,
        getCol out (questionCol m) = .ok (sent.map fun x => x * sFor m) ∧
        getCol out (answerCol m) = .ok (recv.map fun x => x * rFor m) ∧
        getCol out (totalCol m) = .ok (List.zipWith (fun x y => x + y)
          (sent.map fun x => x * sFor m)
          (recv.map fun x => x * rFor m)) := by
  obtain ⟨out, hout, -, -, hcols⟩ := foldl_applyModel_spec llms cs cr ts tr
    sFor rFor models df sent recv hnd hlocS hlocR hfts hftr hts htr hsl hrl
  exact ⟨out, hout, hcols⟩

/-- Witness for `C5_per_model_cost_columns`: the spec's worked example —
a row with 2.66 million sent and 5.32 million received tokens and rates
0.01/0.015 yields costs 0.0266, 0.0798 and 0.1064. -/
theorem C5_per_model_cost_columns_witness :
    ∃ out, calculate_total_cost
        [("m_tokens_sent", [266/100]), ("m_tokens_received", [532/100])]
        ⟨["A"], [("cost_sent", [1/100]), ("cost_rec", [15/1000])]⟩
        ["A"] "cost_sent" "cost_rec" "m_tokens_sent" "m_tokens_received" =
          .ok out ∧
      getCol out (questionCol "A") = .ok [266/10000] ∧
      getCol out (answerCol "A") = .ok [798/10000] ∧
      getCol out (totalCol "A") = .ok [1064/10000] := by
  obtain ⟨out, hout, hcols⟩ := C5_per_model_cost_columns
    [("m_tokens_sent", [266/100]), ("m_tokens_received", [532/100])]
    ⟨["A"], [("cost_sent", [1/100]), ("cost_rec", [15/1000])]⟩
    ["A"] "cost_sent" "cost_rec" "m_tokens_sent" "m_tokens_received"
    [266/100] [532/100] (fun _ => 1/100) (fun _ => 15/1000)
    (by simp)
    (by intro m hm; rw [List.mem_singleton] at hm; subst hm
        with_unfolding_all rfl)
    (by intro m hm; rw [List.mem_singleton] at hm; subst hm
        with_unfolding_all rfl)
    (by intro m hm; rw [List.mem_singleton] at hm; subst hm
        exact ⟨by decide, by decide, by decide⟩)
    (by intro m hm; rw [List.mem_singleton] at hm; subst hm
        exact ⟨by decide, by decide, by decide⟩)
    (by with_unfolding_all rfl) (by with_unfolding_all rfl)
    (by with_unfolding_all rfl) (by with_unfolding_all rfl)
  obtain ⟨h1, h2, h3⟩ := hcols "A" (by simp)
  refine ⟨out, hout, ?_, ?_, ?_⟩
  · rw [h1]
    norm_num
  · rw [h2]
    norm_num
  · rw [h3]
    norm_num

/-- Claim C8 (amended): a pre-existing column whose name equals any of
the three generated cost-column names of any requested model is silently
overwritten, never reported: under the same well-formedness conditions as
the cost computation (unique pricing entry per distinct requested model,
token columns distinct from the generated names), the call still succeeds
and the model's question-, answer- and total-cost columns afterwards hold
the freshly computed values — whatever the colliding column held before
is discarded without any error. -/
theorem C8_amended_collision_is_silent_overwrite (df : DataFrame)
    (llms : LlmTable) (models : List String) (cs cr ts tr : String)
    (sent recv old : List ℚ) (sFor rFor : String → ℚ) (model : String)
    (hm : model ∈ models)
    (hold : getCol df (questionCol model) = .ok old ∨
      getCol df (answerCol model) = .ok old ∨
      getCol df (totalCol model) = .ok old)
    (hnd : models.Nodup)
    (hlocS : ∀ m ∈ models, locModel llms m cs = .ok [sFor m])
    (hlocR : ∀ m ∈ models, locModel llms m cr = .ok [rFor m])
    (hfts : ∀ m ∈ models, ts ≠ questionCol m ∧ ts ≠ answerCol m ∧
      ts ≠ totalCol m)
    (hftr : ∀ m ∈ models, tr ≠ questionCol m ∧ tr ≠ answerCol m ∧
      tr ≠ totalCol m)
    (hts : getCol df ts = .ok sent) (htr : getCol df tr = .ok recv)
    (hsl : sent.length = nRows df) (hrl : recv.length = nRows df) :
    ∃ out, calculate_total_cost df llms models cs cr ts tr = .ok out ∧
      getCol out (questionCol model) =
        .ok (sent.map fun x => x * sFor model) ∧
      getCol out (answerCol model) =
        .ok (recv.map fun x => x * rFor model) ∧
      getCol out (totalCol model) = .ok (List.zipWith (fun x y => x + y)
        (sent.map fun x => x * sFor model)
        (recv.map fun x => x * rFor model)) := by
  obtain ⟨out, hout, -, -, hcols⟩ := foldl_applyModel_spec llms cs cr ts tr
    sFor rFor models df sent recv hnd hlocS hlocR hfts hftr hts htr hsl hrl
  obtain ⟨hq, ha, ht2⟩ := hcols model hm
  exact ⟨out, hout, hq, ha, ht2⟩

/-- Witness for `C8_amended_collision_is_silent_overwrite`: a two-model
call in which the pre-existing `Answer cost B (USD)` column holding 99 is
replaced by the computed 5. -/
theorem C8_amended_collision_is_silent_overwrite_witness :
    ∃ out, calculate_total_cost
        [("m_tokens_sent", [1]), ("m_tokens_received", [1]),
         ("Answer cost B (USD)", [99])]
        ⟨["A", "B"], [("cost_sent", [2, 4]), ("cost_rec", [3, 5])]⟩
        ["A", "B"] "cost_sent" "cost_rec" "m_tokens_sent"
        "m_tokens_received" = .ok out ∧
      getCol out (questionCol "B") = .ok [4] ∧
      getCol out (answerCol "B") = .ok [5] ∧
      getCol out (totalCol "B") = .ok [9] := by
  obtain ⟨out, hout, hq, ha, ht⟩ := C8_amended_collision_is_silent_overwrite
    [("m_tokens_sent", [1]), ("m_tokens_received", [1]),
     ("Answer cost B (USD)", [99])]
    ⟨["A", "B"], [("cost_sent", [2, 4]), ("cost_rec", [3, 5])]⟩
    ["A", "B"] "cost_sent" "cost_rec" "m_tokens_sent" "m_tokens_received"
    [1] [1] [99]
    (fun m => if m = "A" then 2 else 4) (fun m => if m = "A" then 3 else 5)
    "B" (by simp)
    (Or.inr (Or.inl (by with_unfolding_all rfl)))
    (by simp)
    (by
      intro m hm
      rcases List.mem_cons.1 hm with rfl | hm2
      · with_unfolding_all rfl
      · rw [List.mem_singleton] at hm2
        subst hm2
        with_unfolding_all rfl)
    (by
      intro m hm
      rcases List.mem_cons.1 hm with rfl | hm2
      · with_unfolding_all rfl
      · rw [List.mem_singleton] at hm2
        subst hm2
        with_unfolding_all rfl)
    (by
      intro m hm
      rcases List.mem_cons.1 hm with rfl | hm2
      · exact ⟨by decide, by decide, by decide⟩
      · rw [List.mem_singleton] at hm2
        subst hm2
        exact ⟨by decide, by decide, by decide⟩)
    (by
      intro m hm
      rcases List.mem_cons.1 hm with rfl | hm2
      · exact ⟨by decide, by decide, by decide⟩
      · rw [List.mem_singleton] at hm2
        subst hm2
        exact ⟨by decide, by decide, by decide⟩)
    (by with_unfolding_all rfl) (by with_unfolding_all rfl)
    (by with_unfolding_all rfl) (by with_unfolding_all rfl)
  refine ⟨out, hout, ?_, ?_, ?_⟩
  · rw [hq]
    with_unfolding_all rfl
  · rw [ha]
    with_unfolding_all rfl
  · rw [ht]
    with_unfolding_all rfl

/-- Broadcasting a singleton against a non-singleton list multiplies the
single value across it. -/
theorem npMul_one_left (x : ℚ) (ys : List ℚ) (hys : ∀ y, ys ≠ [y]) :
    npMul [x] ys = .ok (ys.map fun y => x * y) := by
  rcases ys with - | ⟨y, - | ⟨y2, ys⟩⟩
  · rfl
  · exact absurd rfl (hys y)
  · rfl

/-- Mismatched non-singleton shapes make the numpy product fail. -/
theorem npMul_error (xs ys : List ℚ) (hxs : ∀ x, xs ≠ [x])
    (hys : ∀ y, ys ≠ [y]) (hlen : xs.length ≠ ys.length) :
    npMul xs ys = .error "operands could not be broadcast together" := by
  rcases xs with - | ⟨x, - | ⟨x2, xs⟩⟩
  · rcases ys with - | ⟨y, - | ⟨y2, ys⟩⟩
    · exact absurd rfl hlen
    · exact absurd rfl (hys y)
    · simp only [npMul]
      rw [if_neg hlen]
  · exact absurd rfl (hxs x)
  · rcases ys with - | ⟨y, - | ⟨y2, ys⟩⟩
    · simp only [npMul]
      rw [if_neg hlen]
    · exact absurd rfl (hys y)
    · simp only [npMul]
      rw [if_neg hlen]

/-- A mismatched pricing-match count makes the loop iteration itself
fail: with the sent-token column holding `sent` of the table's row count
and `rates` matches for the model, `rates.length ∉ {1, row count}` forces
either a numpy broadcast error or a pandas length error inside the
iteration. -/
theorem applyModel_error (df : DataFrame) (llms : LlmTable)
    (model cs cr ts tr : String) (sent rates : List ℚ)
    (hts : getCol df ts = .ok sent)
    (hsl : sent.length = nRows df)
    (hrt : locModel llms model cs = .ok rates)
    (h1 : rates.length ≠ 1)
    (hn : rates.length ≠ nRows df) :
    ∃ e, applyModel llms cs cr ts tr df model = .error e := by
  rw [applyModel, hts, except_bind_ok, hrt, except_bind_ok]
  have hys : ∀ y, rates ≠ [y] := by
    rintro y rfl
    exact h1 rfl
  have hlen : sent.length ≠ rates.length := by
    intro h2
    exact hn (by rw [← h2, hsl])
  rcases sent with - | ⟨x, - | ⟨x2, xs⟩⟩
  · have h0 : nRows df = 0 := by simpa using hsl.symm
    rcases hr0 : rates with - | ⟨y, ys⟩
    · exact absurd (by simp [h0, hr0] :
        rates.length = nRows df) hn
    · rw [npMul_error [] (y :: ys) (by simp) (by rw [← hr0]; exact hys)
        (by rw [← hr0]; exact hlen), except_bind_error]
      exact ⟨_, rfl⟩
  · rw [npMul_one_left x rates hys, except_bind_ok,
      setCol_isError df (questionCol model) _ (by
        rw [List.length_map]
        exact hn),
      except_bind_error]
    exact ⟨_, rfl⟩
  · rw [npMul_error (x :: x2 :: xs) rates (by simp) hys hlen,
      except_bind_error]
    exact ⟨_, rfl⟩

/-- A successful column assignment keeps every well-shaped column present
and well-shaped (its values may have been overwritten). -/
theorem setCol_getCol_invariant (df : DataFrame) (name : String)
    (vals : List ℚ) (df2 : DataFrame) (col : String) (sent : List ℚ)
    (h : setCol df name vals = .ok df2)
    (hc : getCol df col = .ok sent) (hlen : sent.length = nRows df) :
    ∃ sent2, getCol df2 col = .ok sent2 ∧ sent2.length = nRows df := by
  obtain ⟨hv, hn, hself, hother⟩ := setCol_ok_spec df name vals df2 h
  by_cases hce : col = name
  · subst hce
    exact ⟨vals, hself, hv⟩
  · exact ⟨sent, (hother col hce).trans hc, hlen⟩

/-- A successful loop iteration preserves the row count and keeps any
well-shaped column present and well-shaped. -/
theorem applyModel_ok_preserves (llms : LlmTable) (cs cr ts tr : String)
    (df : DataFrame) (model : String) (df2 : DataFrame)
    (h : applyModel llms cs cr ts tr df model = .ok df2) :
    nRows df2 = nRows df ∧
    ∀ col sent, getCol df col = .ok sent → sent.length = nRows df →
      ∃ sent2, getCol df2 col = .ok sent2 ∧ sent2.length = nRows df := by
  rw [applyModel] at h
  cases hg1 : getCol df ts with
  | error e => rw [hg1, except_bind_error] at h; cases h
  | ok v1 =>
  rw [hg1, except_bind_ok] at h
  cases hg2 : locModel llms model cs with
  | error e => rw [hg2, except_bind_error] at h; cases h
  | ok v2 =>
  rw [hg2, except_bind_ok] at h
  cases hg3 : npMul v1 v2 with
  | error e => rw [hg3, except_bind_error] at h; cases h
  | ok v3 =>
  rw [hg3, except_bind_ok] at h
  cases hg4 : setCol df (questionCol model) v3 with
  | error e => rw [hg4, except_bind_error] at h; cases h
  | ok d1 =>
  rw [hg4, except_bind_ok] at h
  cases hg5 : getCol d1 tr with
  | error e => rw [hg5, except_bind_error] at h; cases h
  | ok v5 =>
  rw [hg5, except_bind_ok] at h
  cases hg6 : locModel llms model cr with
  | error e => rw [hg6, except_bind_error] at h; cases h
  | ok v6 =>
  rw [hg6, except_bind_ok] at h
  cases hg7 : npMul v5 v6 with
  | error e => rw [hg7, except_bind_error] at h; cases h
  | ok v7 =>
  rw [hg7, except_bind_ok] at h
  cases hg8 : setCol d1 (answerCol model) v7 with
  | error e => rw [hg8, except_bind_error] at h; cases h
  | ok d2 =>
  rw [hg8, except_bind_ok] at h
  cases hg9 : getCol d2 (questionCol model) with
  | error e => rw [hg9, except_bind_error] at h; cases h
  | ok v9 =>
  rw [hg9, except_bind_ok] at h
  cases hg10 : getCol d2 (answerCol model) with
  | error e => rw [hg10, except_bind_error] at h; cases h
  | ok v10 =>
  rw [hg10, except_bind_ok] at h
  obtain ⟨-, hn4, -, -⟩ := setCol_ok_spec _ _ _ _ hg4
  obtain ⟨-, hn8, -, -⟩ := setCol_ok_spec _ _ _ _ hg8
  obtain ⟨-, hnF, -, -⟩ := setCol_ok_spec _ _ _ _ h
  refine ⟨by rw [hnF, hn8, hn4], ?_⟩
  intro col sent hc hlen
  obtain ⟨s1, hc1, hl1⟩ := setCol_getCol_invariant df _ _ d1 col sent
    hg4 hc hlen
  obtain ⟨s2, hc2, hl2⟩ := setCol_getCol_invariant d1 _ _ d2 col s1
    hg8 hc1 (hl1.trans hn4.symm)
  obtain ⟨s3, hc3, hl3⟩ := setCol_getCol_invariant d2 _ _ df2 col s2
    h hc2 (hl2.trans hn8.symm)
  exact ⟨s3, hc3, hl3.trans (hn8.trans hn4)⟩

/-- Folding the loop over any model list containing a mismatched id
fails: earlier iterations either fail themselves or preserve the row
count and the sent-token column, so the mismatched id's iteration is
reached with its error condition intact. -/
theorem foldl_applyModel_error (llms : LlmTable)
    (cs cr ts tr model : String) (rates : List ℚ)
    (hrt : locModel llms model cs = .ok rates) (h1 : rates.length ≠ 1) :
    ∀ (models : List String) (df : DataFrame) (sent : List ℚ),
    model ∈ models →
    getCol df ts = .ok sent → sent.length = nRows df →
    rates.length ≠ nRows df →
    ∃ e, List.foldlM (applyModel llms cs cr ts tr) df models = .error e
  | [], _, _, hmem, _, _, _ => absurd hmem (by simp)
  | m2 :: ms, df, sent, hmem, hts, hsl, hn => by
    rw [show List.foldlM (applyModel llms cs cr ts tr) df (m2 :: ms) =
      (applyModel llms cs cr ts tr df m2 >>= fun b =>
        List.foldlM (applyModel llms cs cr ts tr) b ms) from rfl]
    cases hstep : applyModel llms cs cr ts tr df m2 with
    | error e => exact ⟨e, rfl⟩
    | ok df2 =>
      rw [except_bind_ok]
      rcases List.mem_cons.1 hmem with rfl | hmem2
      · obtain ⟨e, he⟩ := applyModel_error df llms model cs cr ts tr sent
          rates hts hsl hrt h1 hn
        rw [hstep] at he
        cases he
      · obtain ⟨hnr, hinv⟩ := applyModel_ok_preserves llms cs cr ts tr df
          m2 df2 hstep
        obtain ⟨sent2, hts2, hsl2⟩ := hinv ts sent hts hsl
        exact foldl_applyModel_error llms cs cr ts tr model rates hrt h1
          ms df2 sent2 hmem2 hts2 (hsl2.trans hnr.symm)
          (fun h2 => hn (h2.trans hnr))

/-- Claim C4 (amended): in every call whose `model_ids` list contains an
id with a pricing-match count differing from 1 and from the
scenario-table row count, `calculate_total_cost` fails with an error
(numpy's broadcast error or pandas' length error — there is no
`UnknownModelError` class) and produces no output table.  In particular
zero matches with a non-empty table always fail, but `m > 1` duplicate
matches are detected only when `m` differs from the row count (see the
counterexample for the silent `m = rows` case). -/
theorem C4_amended_mismatched_match_count_errors (df : DataFrame)
    (llms : LlmTable) (models : List String) (model cs cr ts tr : String)
    (sent rates : List ℚ)
    (hmem : model ∈ models)
    (hts : getCol df ts = .ok sent)
    (hsl : sent.length = nRows df)
    (hrt : locModel llms model cs = .ok rates)
    (h1 : rates.length ≠ 1)
    (hn : rates.length ≠ nRows df) :
    ∃ e, calculate_total_cost df llms models cs cr ts tr = .error e :=
  foldl_applyModel_error llms cs cr ts tr model rates hrt h1 models df
    sent hmem hts hsl hn

/-- Witness for `C4_amended_mismatched_match_count_errors`: the model
list ["B", "A"] where "B" has a valid unique entry and "A" has zero
pricing entries against a one-row table. -/
theorem C4_amended_mismatched_match_count_errors_witness :
    ∃ e, calculate_total_cost
        [("m_tokens_sent", [1]), ("m_tokens_received", [1])]
        ⟨["B"], [("cost_sent", [5]), ("cost_rec", [5])]⟩
        ["B", "A"] "cost_sent" "cost_rec" "m_tokens_sent"
        "m_tokens_received" = .error e :=
  C4_amended_mismatched_match_count_errors
    [("m_tokens_sent", [1]), ("m_tokens_received", [1])]
    ⟨["B"], [("cost_sent", [5]), ("cost_rec", [5])]⟩
    ["B", "A"] "A" "cost_sent" "cost_rec" "m_tokens_sent"
    "m_tokens_received" [1] []
    (by simp) (by with_unfolding_all rfl) (by with_unfolding_all rfl)
    (by with_unfolding_all rfl) (by decide) (by with_unfolding_all decide)

/-- The question-cost assignment writes only through reference `r`. -/
theorem stmtQuestion_frame (llmLocal : LlmTable) (cs ts : String) (r : ℕ)
    (model : String) (h : Heap) :
    (stmtQuestion llmLocal cs ts r model h).1.llms = h.llms ∧
    ∀ i, i ≠ r →
      (stmtQuestion llmLocal cs ts r model h).1.costs[i]? =
        h.costs[i]? := by
  rw [stmtQuestion]
  split
  · exact ⟨rfl, fun i hi => rfl⟩
  · split
    · exact ⟨rfl, fun i hi => rfl⟩
    · split
      · exact ⟨rfl, fun i hi => rfl⟩
      · exact ⟨rfl, fun i hi => by
          simp [Heap.writeCost, List.getElem?_set_ne (Ne.symm hi)]⟩

/-- The answer-cost assignment writes only through reference `r`. -/
theorem stmtAnswer_frame (llmLocal : LlmTable) (cr tr : String) (r : ℕ)
    (model : String) (h : Heap) :
    (stmtAnswer llmLocal cr tr r model h).1.llms = h.llms ∧
    ∀ i, i ≠ r →
      (stmtAnswer llmLocal cr tr r model h).1.costs[i]? = h.costs[i]? := by
  rw [stmtAnswer]
  split
  · exact ⟨rfl, fun i hi => rfl⟩
  · split
    · exact ⟨rfl, fun i hi => rfl⟩
    · split
      · exact ⟨rfl, fun i hi => rfl⟩
      · exact ⟨rfl, fun i hi => by
          simp [Heap.writeCost, List.getElem?_set_ne (Ne.symm hi)]⟩

/-- The total-cost assignment writes only through reference `r`. -/
theorem stmtTotal_frame (r : ℕ) (model : String) (h : Heap) :
    (stmtTotal r model h).1.llms = h.llms ∧
    ∀ i, i ≠ r →
      (stmtTotal r model h).1.costs[i]? = h.costs[i]? := by
  rw [stmtTotal]
  split
  · exact ⟨rfl, fun i hi => rfl⟩
  · split
    · exact ⟨rfl, fun i hi => rfl⟩
    · split
      · exact ⟨rfl, fun i hi => rfl⟩
      · exact ⟨rfl, fun i hi => by
          simp [Heap.writeCost, List.getElem?_set_ne (Ne.symm hi)]⟩

/-- One loop iteration writes only through reference `r`. -/
theorem applyModelOp_frame (llmLocal : LlmTable)
    (cs cr ts tr : String) (r : ℕ) (model : String) (h : Heap) :
    (applyModelOp llmLocal cs cr ts tr r model h).1.llms = h.llms ∧
    ∀ i, i ≠ r →
      (applyModelOp llmLocal cs cr ts tr r model h).1.costs[i]? =
        h.costs[i]? := by
  rw [applyModelOp]
  rcases hsq : stmtQuestion llmLocal cs ts r model h with ⟨h1, e1⟩
  have hf1 := stmtQuestion_frame llmLocal cs ts r model h
  rw [hsq] at hf1
  rcases e1 with - | e
  · simp only [hsq]
    rcases hsa : stmtAnswer llmLocal cr tr r model h1 with ⟨h2, e2⟩
    have hf2 := stmtAnswer_frame llmLocal cr tr r model h1
    rw [hsa] at hf2
    rcases e2 with - | e
    · simp only [hsa]
      have hf3 := stmtTotal_frame r model h2
      exact ⟨by rw [hf3.1, hf2.1, hf1.1],
        fun i hi => by rw [hf3.2 i hi, hf2.2 i hi, hf1.2 i hi]⟩
    · simp only [hsa]
      exact ⟨hf2.1.trans hf1.1,
        fun i hi => (hf2.2 i hi).trans (hf1.2 i hi)⟩
  · simp only [hsq]
    exact hf1

/-- The whole model loop writes only through reference `r`, and on
success returns `r` itself. -/
theorem loopModels_frame (llmLocal : LlmTable) (cs cr ts tr : String)
    (r : ℕ) :
    ∀ (models : List String) (h : Heap),
    (loopModels llmLocal cs cr ts tr r models h).1.llms = h.llms ∧
    (∀ i, i ≠ r →
      (loopModels llmLocal cs cr ts tr r models h).1.costs[i]? =
        h.costs[i]?) ∧
    ∀ n, (loopModels llmLocal cs cr ts tr r models h).2 = .ok n → n = r
  | [], h => ⟨rfl, fun i hi => rfl, fun n hn => by
      injection hn with hn
      exact hn.symm⟩
  | m :: ms, h => by
    rw [loopModels]
    rcases hop : applyModelOp llmLocal cs cr ts tr r m h with ⟨h2, e2⟩
    have hf := applyModelOp_frame llmLocal cs cr ts tr r m h
    rw [hop] at hf
    rcases e2 with - | e
    · have ih := loopModels_frame llmLocal cs cr ts tr r ms h2
      exact ⟨ih.1.trans hf.1,
        fun i hi => (ih.2.1 i hi).trans (hf.2 i hi), ih.2.2⟩
    · exact ⟨hf.1, fun i hi => hf.2 i hi, fun n hn => by cases hn⟩

/-- Claim C6: `calculate_total_cost` never mutates the caller's tables.
In the heap model, for any valid references `i` (scenario table) and `j`
(pricing table), running the operational `calculate_total_cost` leaves the
table behind every pre-existing reference — in particular `i` — exactly as
it was and leaves all pricing tables untouched, while the result (when the
call succeeds) is a reference to a freshly allocated table, distinct from
every pre-existing reference. -/
theorem C6_inputs_never_mutated (h : Heap) (i j : ℕ)
    (models : List String) (cs cr ts tr : String)
    (hi : i < h.costs.length) (hj : j < h.llms.length) :
    (∀ k, k < h.costs.length →
      (calculate_total_cost_op h i j models cs cr ts tr).1.costs[k]? =
        h.costs[k]?) ∧
    (calculate_total_cost_op h i j models cs cr ts tr).1.llms = h.llms ∧
    ∀ n, (calculate_total_cost_op h i j models cs cr ts tr).2 = .ok n →
      n = h.costs.length ∧ n ≠ i := by
  obtain ⟨dfc, hdfc⟩ : ∃ d, h.costs[i]? = some d :=
    ⟨h.costs[i], List.getElem?_eq_getElem hi⟩
  obtain ⟨dfl, hdfl⟩ : ∃ d, h.llms[j]? = some d :=
    ⟨h.llms[j], List.getElem?_eq_getElem hj⟩
  rw [calculate_total_cost_op, hdfc, hdfl]
  have hf := loopModels_frame dfl cs cr ts tr h.costs.length models
    { h with costs := h.costs ++ [dfc] }
  refine ⟨?_, hf.1, ?_⟩
  · intro k hk
    rw [hf.2.1 k (Nat.ne_of_lt hk)]
    exact List.getElem?_append_left hk
  · intro n hn
    have := hf.2.2 n hn
    exact ⟨this, this ▸ Nat.ne_of_gt hi⟩

/-- Witness for `C6_inputs_never_mutated` on a one-entry heap. -/
theorem C6_inputs_never_mutated_witness :
    (∀ k, k < ([[("m_tokens_sent", [(1 : ℚ)])]] : List DataFrame).length →
      (calculate_total_cost_op
        ⟨[[("m_tokens_sent", [1])]],
         [⟨["A"], [("cost_sent", [2]), ("cost_rec", [3])]⟩]⟩
        0 0 ["A"] "cost_sent" "cost_rec" "m_tokens_sent"
        "m_tokens_received").1.costs[k]? =
          ([[("m_tokens_sent", [(1 : ℚ)])]] : List DataFrame)[k]?) ∧
    (calculate_total_cost_op
        ⟨[[("m_tokens_sent", [1])]],
         [⟨["A"], [("cost_sent", [2]), ("cost_rec", [3])]⟩]⟩
        0 0 ["A"] "cost_sent" "cost_rec" "m_tokens_sent"
        "m_tokens_received").1.llms =
      [⟨["A"], [("cost_sent", [2]), ("cost_rec", [3])]⟩] ∧
    ∀ n, (calculate_total_cost_op
        ⟨[[("m_tokens_sent", [1])]],
         [⟨["A"], [("cost_sent", [2]), ("cost_rec", [3])]⟩]⟩
        0 0 ["A"] "cost_sent" "cost_rec" "m_tokens_sent"
        "m_tokens_received").2 = .ok n → n = 1 ∧ n ≠ 0 :=
  C6_inputs_never_mutated
    ⟨[[("m_tokens_sent", [1])]],
     [⟨["A"], [("cost_sent", [2]), ("cost_rec", [3])]⟩]⟩
    0 0 ["A"] "cost_sent" "cost_rec" "m_tokens_sent" "m_tokens_received"
    (by decide) (by decide)

end CostModel
